import Mathlib

/-!
Verification of the scheduling core of the AI-Doctor-Scheduling repository.

Shallow embedding of `backend/models.py`, `backend/services/scheduling.py`
and `backend/services/ml_model.py`.

Modelling conventions:
* Instants (Python `datetime`, UTC) are integers counting minutes since an
  arbitrary epoch; a calendar date is a natural-number day index, day `d`
  spanning the half-open minute interval `[1440*d, 1440*(d+1))`.  Day `0`
  is taken to be a Monday, so `date.weekday()` becomes `d % 7`
  (Monday = 0, exactly as in the Python code).
* Times-of-day (`DoctorAvailability.start_time` / `end_time`) are minutes
  from midnight; `datetime.combine(date, t)` becomes `1440*date + t`.
* Floats that hold probabilities are modelled as rationals.
* Database state is a record of lists; entity tables that the scheduling
  code only probes for existence (patients, doctors, hospitals) are lists
  of ids.  The unique constraint `uix_doctor_datetime` on
  `(doctor_id, appointment_datetime)` (backend/models.py) is modelled at
  the flush step of booking.
* Fallible steps are modelled with `Except`.
-/

namespace AIDoctor

/-- `AppointmentStatus` enum of backend/models.py. -/
inductive AppointmentStatus where
  | scheduled
  | confirmed
  | completed
  | cancelled
  | no_show
deriving DecidableEq, Repr

/-- A row of the `doctor_availability` table (backend/models.py). -/
structure DoctorAvailability where
  doctor_id : Nat
  day_of_week : Nat
  start_time : Int
  end_time : Int
  is_available : Bool
deriving DecidableEq, Repr

/-- A row of the `appointments` table (backend/models.py); columns not read
or written by the scheduling service (`created_at`) are omitted. -/
structure Appointment where
  id : Nat
  patient_id : Nat
  doctor_id : Nat
  hospital_id : Nat
  appointment_datetime : Int
  duration_minutes : Int
  status : AppointmentStatus
  no_show_probability : ℚ
  reason : Option String
  updated_at : Option Int
  cancelled_at : Option Int
deriving DecidableEq, Repr

/-- The database state visible to the scheduling service. -/
structure DB where
  patients : List Nat
  doctors : List Nat
  hospitals : List Nat
  availabilities : List DoctorAvailability
  appointments : List Appointment
deriving DecidableEq, Repr

/-- `SLOT_INCREMENT_MINUTES` of backend/services/scheduling.py. -/
def SLOT_INCREMENT_MINUTES : Int := 15

/-- `MAX_BOOKING_DAYS_AHEAD` of backend/services/scheduling.py. -/
def MAX_BOOKING_DAYS_AHEAD : Int := 90

/-- Python `date.weekday()` for an abstract day index (day 0 is a Monday). -/
def weekdayOf (date : Nat) : Nat := date % 7

/-- The statuses treated as occupying a slot by `find_available_slots`
(`_status_names(AppointmentStatus.SCHEDULED, AppointmentStatus.CONFIRMED)`;
the `func.upper` comparison in the query is the identity on the canonical
enum values, so this is plain status membership). -/
def isActiveStatus (s : AppointmentStatus) : Bool :=
  s == .scheduled || s == .confirmed

/-- The availability query of `find_available_slots`
(scheduling.py lines 82-88): rows of the doctor, on the weekday, enabled. -/
def enabledWindows (db : DB) (doctor_id weekday : Nat) : List DoctorAvailability :=
  db.availabilities.filter fun a =>
    a.doctor_id == doctor_id && a.day_of_week == weekday && a.is_available

/-- The appointment query of `find_available_slots`
(scheduling.py lines 101-108): the doctor's appointments starting inside
the day, with an active status. -/
def activeApptsOnDate (db : DB) (doctor_id : Nat) (date : Nat) : List Appointment :=
  db.appointments.filter fun ap =>
    ap.doctor_id == doctor_id &&
    decide (1440 * (date : Int) ≤ ap.appointment_datetime) &&
    decide (ap.appointment_datetime < 1440 * (date : Int) + 1440) &&
    isActiveStatus ap.status

/-- The `any(current < busy_end and slot_end > busy_start ...)` conflict
test of scheduling.py lines 131-134. -/
def overlapsAny (busy : List (Int × Int)) (s e : Int) : Bool :=
  busy.any fun bi => decide (s < bi.2) && decide (e > bi.1)

/-- The `while current + timedelta(minutes=consultation_minutes) <= end_dt`
loop of scheduling.py lines 126-139, one availability window.  The loop is
written with an explicit iteration budget `fuel`; `slotFuel` below computes
a budget large enough that the loop always exits through its own guard, so
the translation is exact (see `slotLoop_mem_of_fuel`). -/
def slotLoop (c endDt : Int) (busy : List (Int × Int)) : Nat → Int → List Int
  | 0, _ => []
  | fuel + 1, current =>
    if current + c ≤ endDt then
      if overlapsAny busy current (current + c) then
        slotLoop c endDt busy fuel (current + SLOT_INCREMENT_MINUTES)
      else
        current :: slotLoop c endDt busy fuel (current + SLOT_INCREMENT_MINUTES)
    else []

/-- An iteration budget under which `slotLoop` exits through its guard. -/
def slotFuel (c endDt current : Int) : Nat := (endDt - c - current).toNat / 15 + 1

/-- Python `sorted(set(slots))` (scheduling.py line 141): the strictly
increasing enumeration of the distinct elements. -/
def sortedUnique (l : List Int) : List Int :=
  List.insertionSort (· ≤ ·) l.dedup

/-- `find_available_slots` of backend/services/scheduling.py (lines 71-141). -/
def findAvailableSlots (db : DB) (doctor_id : Nat) (date : Nat)
    (consultation_minutes : Int) : List Int :=
  let weekday := weekdayOf date
  let rows := enabledWindows db doctor_id weekday
  if rows.isEmpty then []
  else
    let startOfDay : Int := 1440 * (date : Int)
    let busy := (activeApptsOnDate db doctor_id date).map fun ap =>
      (ap.appointment_datetime, ap.appointment_datetime + ap.duration_minutes)
    let all := rows.flatMap fun a =>
      let startDt := startOfDay + a.start_time
      let endDt := startOfDay + a.end_time
      slotLoop consultation_minutes endDt busy
        (slotFuel consultation_minutes endDt startDt) startDt
    sortedUnique all

/-- Booking rejections of `book_appointment` (scheduling.py).  Each
constructor corresponds to one distinct `{"success": False, ...}` return;
`internalError` is the generic `except Exception` branch after the flush,
which the model's commit step (whose only failure is the uniqueness
constraint) never produces. -/
inductive BookError where
  | pastBooking
  | bookingTooFar
  | patientNotFound
  | doctorNotFound
  | hospitalNotFound
  | slotTaken
  | internalError
deriving DecidableEq, Repr

/-- The literal `message` strings of scheduling.py. -/
def bookErrorMessage : BookError → String
  | .pastBooking => "Cannot book in the past"
  | .bookingTooFar => "Booking too far in future"
  | .patientNotFound => "Patient not found"
  | .doctorNotFound => "Doctor not found"
  | .hospitalNotFound => "Hospital not found"
  | .slotTaken => "Slot already booked"
  | .internalError => "Internal server error"

/-- Result of `book_appointment`: the success dict carries
`appointment_id` and `no_show_probability`. -/
inductive BookOutcome where
  | ok (appointment_id : Nat) (no_show_probability : ℚ)
  | err (e : BookError)
deriving DecidableEq, Repr

/-- Whether a committed row already holds the key of the
`uix_doctor_datetime` unique constraint on
`(doctor_id, appointment_datetime)` (backend/models.py lines 123-131);
`session.flush()` raises `IntegrityError` exactly in this case. -/
def hasDoctorSlot (db : DB) (doctor_id : Nat) (t : Int) : Bool :=
  db.appointments.any fun ap =>
    ap.doctor_id == doctor_id && ap.appointment_datetime == t

/-- The `try/except` around the ML prediction in `book_appointment`
(scheduling.py lines 180-188): a raised scoring failure is replaced by the
default probability 0.5. -/
def bookProbability (scoring : Except Unit ℚ) : ℚ :=
  match scoring with
  | .ok p => p
  | .error _ => 1 / 2

/-- `book_appointment` of backend/services/scheduling.py (lines 148-227).

* `now` is `datetime.now(UTC)`; `appointment_dt` is the already normalised
  start instant (`_normalize_datetime_input` truncates sub-second
  precision, which minute-valued instants make vacuous).
* `scoring` is the outcome of the prediction `try` block body
  (`build_features` + `get_predictor().predict` + `float(...)`): `.ok p`
  when it produced probability `p`, `.error ()` when it raised.
* `newId` is the id the storage layer assigns to the inserted row at
  `session.flush()`.
* The `session.flush()` / `IntegrityError` pair is the atomic
  insert-if-key-free step; on conflict the transaction is rolled back and
  the state is returned unchanged. -/
def bookAppointment (db : DB) (now : Int) (patient_id doctor_id hospital_id : Nat)
    (appointment_dt : Int) (duration_minutes : Int) (reason : Option String)
    (scoring : Except Unit ℚ) (newId : Nat) : BookOutcome × DB :=
  if appointment_dt ≤ now then
    (.err .pastBooking, db)
  else if now + 1440 * MAX_BOOKING_DAYS_AHEAD < appointment_dt then
    (.err .bookingTooFar, db)
  else if ¬ db.patients.contains patient_id then
    (.err .patientNotFound, db)
  else if ¬ db.doctors.contains doctor_id then
    (.err .doctorNotFound, db)
  else if ¬ db.hospitals.contains hospital_id then
    (.err .hospitalNotFound, db)
  else if hasDoctorSlot db doctor_id appointment_dt then
    (.err .slotTaken, db)
  else
    (.ok newId (bookProbability scoring),
      { db with appointments := db.appointments ++
        [{ id := newId
           patient_id := patient_id
           doctor_id := doctor_id
           hospital_id := hospital_id
           appointment_datetime := appointment_dt
           duration_minutes := duration_minutes
           status := .scheduled
           no_show_probability := bookProbability scoring
           reason := reason
           updated_at := none
           cancelled_at := none }] })

/-- Result of `cancel_appointment`. -/
inductive CancelOutcome where
  | ok
  | notFound
  | cannotCancel
deriving DecidableEq, Repr

/-- The in-place row update performed by a successful cancellation
(scheduling.py lines 249-250): status to CANCELLED and `updated_at`
refreshed; no other column — in particular not `cancelled_at` — is
touched. -/
def cancelUpdate (now : Int) (ap : Appointment) : Appointment :=
  { ap with status := .cancelled, updated_at := some now }

/-- Replace the first list element satisfying `p` (the ORM mutates the row
returned by `.first()`). -/
def updateFirst (p : α → Bool) (f : α → α) : List α → List α
  | [] => []
  | x :: xs => if p x then f x :: xs else x :: updateFirst p f xs

/-- `cancel_appointment` of backend/services/scheduling.py (lines 234-254). -/
def cancelAppointment (db : DB) (now : Int) (appointment_id : Nat) :
    CancelOutcome × DB :=
  match db.appointments.find? (fun ap => ap.id == appointment_id) with
  | none => (.notFound, db)
  | some ap =>
    if ap.status == .cancelled || ap.status == .completed then
      (.cannotCancel, db)
    else
      (.ok, { db with
        appointments :=
          updateFirst (fun a => a.id == appointment_id) (cancelUpdate now)
            db.appointments })

/-- One `book_appointment` request, as issued by a concurrent caller. -/
structure BookCall where
  patient_id : Nat
  doctor_id : Nat
  hospital_id : Nat
  appointment_dt : Int
  duration_minutes : Int
  reason : Option String
  scoring : Except Unit ℚ
deriving Repr

/-- A serialisation of concurrent `book_appointment` calls.  In
scheduling.py the only step of a booking that reads or writes the
appointment table is the atomic `session.flush()`/commit guarded by the
`uix_doctor_datetime` constraint (there is no overlap pre-check), so the
observable outcome of any thread interleaving is a function of the order
in which those atomic commits reach the database; that order is the list
order here.  Fresh row ids are assigned sequentially from `nextId`. -/
def runBookings (db : DB) (now : Int) (nextId : Nat) :
    List BookCall → List BookOutcome × DB
  | [] => ([], db)
  | c :: rest =>
    let r := bookAppointment db now c.patient_id c.doctor_id c.hospital_id
      c.appointment_dt c.duration_minutes c.reason c.scoring nextId
    let rs := runBookings r.2 now (nextId + 1) rest
    (r.1 :: rs.1, rs.2)

/-- The fixed feature-key order of `NoShowPredictor.predict`
(ml_model.py lines 43-51). -/
def orderedKeys : List String :=
  ["past_no_shows", "lead_time_days", "time_of_day_bucket", "day_of_week",
   "chronic_conditions_flag", "doctor_consultation_duration", "recent_no_shows"]

/-- Python `features.get(k, 0.0)` over a feature dictionary. -/
def getFeature (features : List (String × ℚ)) (k : String) : ℚ :=
  match features.find? (fun kv => kv.1 == k) with
  | some kv => kv.2
  | none => 0

/-- The wrapped model held by `NoShowPredictor` (ml_model.py): `None`, an
object with `predict_proba`, or one with only `predict`.  The scoring
functions return `Except` because the raw model call may raise. -/
inductive MLModel where
  | noModel
  | withProba (f : List ℚ → Except Unit ℚ)
  | withPredict (f : List ℚ → Except Unit ℚ)

/-- Python `round(proba, 4)` at rational granularity. -/
def round4 (q : ℚ) : ℚ := round (q * 10000) / 10000

/-- The probability/label dict returned by `NoShowPredictor.predict`. -/
structure PredictResult where
  probability : ℚ
  label : Nat
deriving DecidableEq, Repr

/-- The model dispatch of `NoShowPredictor.predict` (ml_model.py lines
55-61): `predict_proba` if present, else `predict`, else the 0.1
fallback. -/
def rawProba (m : MLModel) (x : List ℚ) : Except Unit ℚ :=
  match m with
  | .noModel => .ok (1 / 10)
  | .withProba f => f x
  | .withPredict f => f x

/-- The body of the `try` block of `NoShowPredictor.predict` (ml_model.py
lines 41-68): build the ordered vector, score, derive the label, round. -/
def predictInner (m : MLModel) (features : List (String × ℚ)) :
    Except Unit PredictResult :=
  let x := orderedKeys.map (getFeature features)
  match rawProba m x with
  | .ok proba =>
    .ok { probability := round4 proba, label := if 1 / 2 ≤ proba then 1 else 0 }
  | .error e => .error e

/-- `NoShowPredictor.predict` (ml_model.py lines 33-72): total — the
enclosing `except Exception` turns every scoring failure into
`{"probability": 0.0, "label": 0}`. -/
def predict (m : MLModel) (features : List (String × ℚ)) : PredictResult :=
  match predictInner m features with
  | .ok r => r
  | .error _ => { probability := 0, label := 0 }

/-- The outcome of the booking-side prediction `try` block body
(scheduling.py lines 182-185) as a function of its two fallible parts:
`build_features` (which may raise) and the predictor.  `get_predictor`
never raises (`load_model` catches every load failure and installs the
dummy model), and `predict` is total, so the block raises exactly when
`build_features` does; otherwise it yields
`float(prediction.get("probability", 0.0))`, i.e. the probability field
of `predict`'s result. -/
def scoringStep (featureBuild : Except Unit (List (String × ℚ)))
    (m : MLModel) : Except Unit ℚ :=
  match featureBuild with
  | .error e => .error e
  | .ok features => .ok (predict m features).probability

/-- Modelled from the spec: the candidate-slot description of §4.2 — `t`
is walked from some enabled window's start of that weekday in 15-minute
steps, its full duration fits in that window, and the overlap test
`candidate < busyEnd AND candidate + consultationMinutes > busyStart`
fails against every active appointment of the doctor on the date. -/
def SlotSpec (db : DB) (doctor_id : Nat) (date : Nat) (c : Int) (t : Int) : Prop :=
  (∃ a ∈ enabledWindows db doctor_id (weekdayOf date),
      (∃ k : Nat, t = 1440 * (date : Int) + a.start_time + 15 * k) ∧
      t + c ≤ 1440 * (date : Int) + a.end_time) ∧
  ∀ ap ∈ activeApptsOnDate db doctor_id date,
    ¬(t < ap.appointment_datetime + ap.duration_minutes ∧
      ap.appointment_datetime < t + c)

/-- Whether a booking outcome is the success dict. -/
def isOk : BookOutcome → Bool
  | .ok _ _ => true
  | .err _ => false

/-- The scenario of spec §8: doctor 1 available Monday 09:00-17:00 UTC
(minutes 540-1020 of day 0, a Monday), patient 11, hospital 1, no
bookings. -/
def mondayDemoDb : DB :=
  { patients := [11], doctors := [1], hospitals := [1],
    availabilities := [⟨1, 0, 540, 1020, true⟩],
    appointments := [] }

/-- Entities exist but the doctor has no availability rows at all. -/
def noAvailabilityDb : DB :=
  { patients := [1], doctors := [1], hospitals := [1],
    availabilities := [], appointments := [] }

/-- Doctor and hospital exist, patient table is empty. -/
def noPatientDb : DB :=
  { patients := [], doctors := [1], hospitals := [1],
    availabilities := [], appointments := [] }

/-- A single appointment already in status NO_SHOW. -/
def noShowApptDb : DB :=
  { patients := [11], doctors := [1], hospitals := [1],
    availabilities := [],
    appointments := [⟨1, 11, 1, 1, 600, 30, .no_show, 0, none, none, none⟩] }

/-- A single active (SCHEDULED) appointment with an empty
`cancelled_at`. -/
def scheduledApptDb : DB :=
  { patients := [11], doctors := [1], hospitals := [1],
    availabilities := [],
    appointments := [⟨1, 11, 1, 1, 600, 30, .scheduled, 0, none, none, none⟩] }

/-- Doctor 1 already holds a committed appointment starting at minute
600. -/
def bookedSlotDb : DB :=
  { patients := [11], doctors := [1], hospitals := [1],
    availabilities := [],
    appointments := [⟨7, 11, 1, 1, 600, 30, .scheduled, 0, none, none, none⟩] }

/-- Two concurrent booking requests for the identical doctor/start but
different durations and scoring outcomes. -/
def racingCalls : List BookCall :=
  [⟨11, 1, 1, 600, 30, none, .ok (1/10)⟩,
   ⟨11, 1, 1, 600, 45, none, .error ()⟩]

/-- A single appointment already in status CANCELLED. -/
def cancelledApptDb : DB :=
  { patients := [11], doctors := [1], hospitals := [1],
    availabilities := [],
    appointments := [⟨1, 11, 1, 1, 600, 30, .cancelled, 0, none, none, none⟩] }

/-! ### Helper lemmas -/

lemma slotFuel_sufficient (c endDt current : Int) :
    endDt - c - current < 15 * slotFuel c endDt current := by
  simp only [slotFuel]
  omega

lemma slotLoop_mem_of_fuel (c endDt : Int) (busy : List (Int × Int)) :
    ∀ (fuel : Nat) (current : Int), endDt - c - current < 15 * fuel →
      ∀ t : Int, t ∈ slotLoop c endDt busy fuel current ↔
        ∃ k : Nat, t = current + 15 * k ∧ t + c ≤ endDt ∧
          overlapsAny busy t (t + c) = false := by
  intro fuel
  induction fuel with
  | zero =>
    intro current hfuel t
    simp only [slotLoop, List.not_mem_nil, false_iff]
    rintro ⟨k, ht, hle, -⟩
    omega
  | succ n ih =>
    intro current hfuel t
    simp only [slotLoop, SLOT_INCREMENT_MINUTES]
    by_cases h : current + c ≤ endDt
    · rw [if_pos h]
      have hfuel' : endDt - c - (current + 15) < 15 * n := by omega
      by_cases hc : overlapsAny busy current (current + c) = true
      · rw [if_pos hc, ih (current + 15) hfuel' t]
        constructor
        · rintro ⟨k, ht, hle, hov⟩
          exact ⟨k + 1, by omega, hle, hov⟩
        · rintro ⟨k, ht, hle, hov⟩
          match k with
          | 0 =>
            exfalso
            have ht' : t = current := by omega
            rw [ht'] at hov
            rw [hov] at hc
            exact Bool.false_ne_true hc
          | k' + 1 =>
            exact ⟨k', by omega, hle, hov⟩
      · rw [if_neg hc, List.mem_cons, ih (current + 15) hfuel' t]
        constructor
        · rintro (rfl | ⟨k, ht, hle, hov⟩)
          · exact ⟨0, by omega, h, by simpa using hc⟩
          · exact ⟨k + 1, by omega, hle, hov⟩
        · rintro ⟨k, ht, hle, hov⟩
          match k with
          | 0 =>
            left; omega
          | k' + 1 =>
            right; exact ⟨k', by omega, hle, hov⟩
    · rw [if_neg h]
      simp only [List.not_mem_nil, false_iff]
      rintro ⟨k, ht, hle, -⟩
      omega

lemma mem_slotLoop (c endDt : Int) (busy : List (Int × Int)) (current t : Int) :
    t ∈ slotLoop c endDt busy (slotFuel c endDt current) current ↔
      ∃ k : Nat, t = current + 15 * k ∧ t + c ≤ endDt ∧
        overlapsAny busy t (t + c) = false :=
  slotLoop_mem_of_fuel c endDt busy _ current (slotFuel_sufficient c endDt current) t

lemma sortedUnique_sorted (l : List Int) : (sortedUnique l).Sorted (· < ·) := by
  have hs : (sortedUnique l).Sorted (· ≤ ·) := List.sorted_insertionSort _ _
  have hn : (sortedUnique l).Nodup :=
    ((List.perm_insertionSort _ _).nodup_iff).mpr l.nodup_dedup
  exact hs.lt_of_le hn

lemma mem_sortedUnique (l : List Int) (t : Int) : t ∈ sortedUnique l ↔ t ∈ l := by
  simp [sortedUnique, List.mem_insertionSort, List.mem_dedup]

lemma sorted_findAvailableSlots (db : DB) (doctor_id : Nat) (date : Nat) (c : Int) :
    (findAvailableSlots db doctor_id date c).Sorted (· < ·) := by
  simp only [findAvailableSlots]
  split
  · exact List.sorted_nil
  · exact sortedUnique_sorted _

lemma mem_findAvailableSlots (db : DB) (doctor_id : Nat) (date : Nat) (c : Int) (t : Int) :
    t ∈ findAvailableSlots db doctor_id date c ↔ SlotSpec db doctor_id date c t := by
  simp only [findAvailableSlots, SlotSpec]
  by_cases hrows : (enabledWindows db doctor_id (weekdayOf date)).isEmpty
  · rw [if_pos hrows]
    rw [List.isEmpty_iff] at hrows
    simp [hrows]
  · rw [if_neg hrows]
    rw [mem_sortedUnique, List.mem_flatMap]
    constructor
    · rintro ⟨a, ha, hmem⟩
      rw [mem_slotLoop] at hmem
      obtain ⟨k, ht, hle, hov⟩ := hmem
      refine ⟨⟨a, ha, ⟨k, by omega⟩, hle⟩, ?_⟩
      intro ap hap hcontra
      rw [overlapsAny, List.any_eq_false] at hov
      have := hov (ap.appointment_datetime, ap.appointment_datetime + ap.duration_minutes)
        (List.mem_map.mpr ⟨ap, hap, rfl⟩)
      simp [hcontra.1, hcontra.2] at this
    · rintro ⟨⟨a, ha, ⟨k, ht⟩, hle⟩, hnc⟩
      refine ⟨a, ha, ?_⟩
      rw [mem_slotLoop]
      refine ⟨k, by omega, hle, ?_⟩
      rw [overlapsAny, List.any_eq_false]
      rintro ⟨bs, be⟩ hbi
      rw [List.mem_map] at hbi
      obtain ⟨ap, hap, heq⟩ := hbi
      have hnap := hnc ap hap
      simp only [Prod.mk.injEq] at heq
      obtain ⟨h1, h2⟩ := heq
      subst h1; subst h2
      rw [not_and_or] at hnap
      simp only [not_lt] at hnap
      simp only [Bool.not_eq_true, Bool.and_eq_false_iff, decide_eq_false_iff_not, not_lt]
      exact hnap


lemma bookAppointment_ok (db : DB) (now : Int) (pid did hid : Nat)
    (t dur : Int) (reason : Option String) (scoring : Except Unit ℚ) (newId : Nat)
    (h1 : now < t) (h2 : t ≤ now + 1440 * MAX_BOOKING_DAYS_AHEAD)
    (hp : pid ∈ db.patients) (hd : did ∈ db.doctors) (hh : hid ∈ db.hospitals)
    (hno : hasDoctorSlot db did t = false) :
    bookAppointment db now pid did hid t dur reason scoring newId =
      (.ok newId (bookProbability scoring),
       { db with appointments := db.appointments ++
         [{ id := newId, patient_id := pid, doctor_id := did, hospital_id := hid,
            appointment_datetime := t, duration_minutes := dur, status := .scheduled,
            no_show_probability := bookProbability scoring, reason := reason,
            updated_at := none, cancelled_at := none }] }) := by
  simp only [bookAppointment]
  rw [if_neg (by omega), if_neg (by omega), if_neg (by simp [hp]),
      if_neg (by simp [hd]), if_neg (by simp [hh]), if_neg (by simp [hno])]

lemma bookAppointment_taken (db : DB) (now : Int) (pid did hid : Nat)
    (t dur : Int) (reason : Option String) (scoring : Except Unit ℚ) (newId : Nat)
    (h1 : now < t) (h2 : t ≤ now + 1440 * MAX_BOOKING_DAYS_AHEAD)
    (hp : pid ∈ db.patients) (hd : did ∈ db.doctors) (hh : hid ∈ db.hospitals)
    (hyes : hasDoctorSlot db did t = true) :
    bookAppointment db now pid did hid t dur reason scoring newId =
      (.err .slotTaken, db) := by
  simp only [bookAppointment]
  rw [if_neg (by omega), if_neg (by omega), if_neg (by simp [hp]),
      if_neg (by simp [hd]), if_neg (by simp [hh]), if_pos hyes]

lemma runBookings_all_taken (now : Int) (d : Nat) (t : Int) :
    ∀ (calls : List BookCall) (db : DB) (nextId : Nat),
      (∀ c ∈ calls, c.doctor_id = d ∧ c.appointment_dt = t ∧ now < t ∧
        t ≤ now + 1440 * MAX_BOOKING_DAYS_AHEAD ∧ c.patient_id ∈ db.patients ∧
        c.doctor_id ∈ db.doctors ∧ c.hospital_id ∈ db.hospitals) →
      hasDoctorSlot db d t = true →
      runBookings db now nextId calls =
        (calls.map (fun _ => .err .slotTaken), db) := by
  intro calls
  induction calls with
  | nil => intro db nextId hvalid htaken; rfl
  | cons c rest ih =>
    intro db nextId hvalid htaken
    obtain ⟨hcd, hct, h1, h2, hp, hdm, hh⟩ := hvalid c (List.mem_cons_self _ _)
    have hbook := bookAppointment_taken db now c.patient_id c.doctor_id c.hospital_id
      c.appointment_dt c.duration_minutes c.reason c.scoring nextId
      (by rw [hct]; exact h1) (by rw [hct]; exact h2) hp hdm hh
      (by rw [hcd, hct]; exact htaken)
    simp only [runBookings, hbook]
    rw [ih db (nextId + 1) (fun x hx => hvalid x (List.mem_cons_of_mem _ hx)) htaken]
    simp

lemma find?_updateFirst (p : α → Bool) (f : α → α)
    (hpf : ∀ a, p a = true → p (f a) = true) :
    ∀ (l : List α) (x : α), l.find? p = some x →
      (updateFirst p f l).find? p = some (f x) := by
  intro l
  induction l with
  | nil => intro x h; simp at h
  | cons a l ih =>
    intro x h
    by_cases hpa : p a = true
    · rw [List.find?_cons_of_pos _ hpa] at h
      cases h
      simp only [updateFirst, if_pos hpa]
      exact List.find?_cons_of_pos _ (hpf _ hpa)
    · have hpa' : p a = false := by simpa using hpa
      rw [List.find?_cons_of_neg _ (by simp [hpa'])] at h
      simp only [updateFirst]
      rw [if_neg hpa, List.find?_cons_of_neg _ (by simp [hpa'])]
      exact ih x h

lemma cancel_success (db : DB) (now : Int) (id : Nat) (ap : Appointment)
    (hfind : db.appointments.find? (fun a => a.id == id) = some ap)
    (hc : ap.status ≠ .cancelled) (hcm : ap.status ≠ .completed) :
    cancelAppointment db now id =
      (.ok, { db with appointments := updateFirst (fun a => a.id == id) (cancelUpdate now) db.appointments }) := by
  simp only [cancelAppointment, hfind]
  rw [if_neg (by simp [hc, hcm])]

lemma cancel_terminal (db : DB) (now : Int) (id : Nat) (ap : Appointment)
    (hfind : db.appointments.find? (fun a => a.id == id) = some ap)
    (h : ap.status = .cancelled ∨ ap.status = .completed) :
    cancelAppointment db now id = (.cannotCancel, db) := by
  simp only [cancelAppointment, hfind]
  rcases h with h | h <;> rw [if_pos (by simp [h])]


/-! ### Claim theorems -/

/-- Claim C3: for every doctor, date and consultationMinutes > 0, `find_available_slots` returns the strictly ascending (hence duplicate-free) list of exactly those candidate starts obtained by walking each enabled window of the weekday in 15-minute steps while candidate + consultationMinutes fits, admitting a candidate iff the overlap test `candidate < busyEnd AND candidate + consultationMinutes > busyStart` fails for every active appointment of the doctor on that date; on the Monday 09:00-17:00 example with 30-minute consultations and no bookings the slots are 09:00, 09:15, ..., 16:30 (minutes 540, 555, ..., 990). -/
theorem find_slots_spec_and_example :
    (∀ (db : DB) (doctor_id date : Nat) (c : Int), 0 < c →
      (findAvailableSlots db doctor_id date c).Sorted (· < ·) ∧
      (∀ t : Int, t ∈ findAvailableSlots db doctor_id date c ↔
        SlotSpec db doctor_id date c t)) ∧
    findAvailableSlots mondayDemoDb 1 0 30 =
      [540, 555, 570, 585, 600, 615, 630, 645, 660, 675, 690, 705, 720, 735,
       750, 765, 780, 795, 810, 825, 840, 855, 870, 885, 900, 915, 930, 945,
       960, 975, 990] :=
  ⟨fun db doctor_id date c _ =>
    ⟨sorted_findAvailableSlots db doctor_id date c,
     fun t => mem_findAvailableSlots db doctor_id date c t⟩,
   by decide⟩

/-- Witness for the C3 theorem at the Monday example with consultationMinutes = 30. -/
theorem find_slots_spec_witness :
    (findAvailableSlots mondayDemoDb 1 0 30).Sorted (· < ·) ∧
    (540 ∈ findAvailableSlots mondayDemoDb 1 0 30 ↔
      SlotSpec mondayDemoDb 1 0 30 540) :=
  ⟨(find_slots_spec_and_example.1 mondayDemoDb 1 0 30 (by norm_num)).1,
   (find_slots_spec_and_example.1 mondayDemoDb 1 0 30 (by norm_num)).2 540⟩

/-- Claim C9, counterexample: `find_available_slots` called with consultationMinutes = 0 returns a non-empty ordinary slot sequence (the 33 starts 09:00, 09:15, ..., 17:00) — it performs no validation and produces no failure. -/
theorem find_slots_nonpositive_minutes_cex :
    findAvailableSlots mondayDemoDb 1 0 0 =
      [540, 555, 570, 585, 600, 615, 630, 645, 660, 675, 690, 705, 720, 735,
       750, 765, 780, 795, 810, 825, 840, 855, 870, 885, 900, 915, 930, 945,
       960, 975, 990, 1005, 1020] ∧
    findAvailableSlots mondayDemoDb 1 0 0 ≠ [] := by decide

/-- Claim C9, amended: for consultationMinutes ≤ 0 the call still returns the ordinary strictly sorted walk result with the usual membership characterisation, not a validation failure. -/
theorem find_slots_nonpositive_minutes :
    ∀ (db : DB) (doctor_id date : Nat) (c : Int), c ≤ 0 →
      (findAvailableSlots db doctor_id date c).Sorted (· < ·) ∧
      (∀ t : Int, t ∈ findAvailableSlots db doctor_id date c ↔
        SlotSpec db doctor_id date c t) :=
  fun db doctor_id date c _ =>
    ⟨sorted_findAvailableSlots db doctor_id date c,
     fun t => mem_findAvailableSlots db doctor_id date c t⟩

/-- Witness for the amended C9 theorem at consultationMinutes = 0. -/
theorem find_slots_nonpositive_minutes_witness :
    (findAvailableSlots mondayDemoDb 1 0 0).Sorted (· < ·) ∧
    (1020 ∈ findAvailableSlots mondayDemoDb 1 0 0 ↔
      SlotSpec mondayDemoDb 1 0 0 1020) :=
  ⟨(find_slots_nonpositive_minutes mondayDemoDb 1 0 0 le_rfl).1,
   (find_slots_nonpositive_minutes mondayDemoDb 1 0 0 le_rfl).2 1020⟩

/-- Claim C1: for any serialisation order of the atomic constraint-guarded commits of concurrent `book_appointment` calls with the identical (doctorId, start) pair (durations need not match), if every call passes validation and the key was free beforehand, exactly one call succeeds and every other call receives the SlotTakenError outcome. -/
theorem book_concurrent_exactly_one_success :
    ∀ (db : DB) (now : Int) (nextId : Nat) (calls : List BookCall) (d : Nat) (t : Int),
      calls ≠ [] →
      (∀ c ∈ calls, c.doctor_id = d ∧ c.appointment_dt = t ∧ now < t ∧
        t ≤ now + 1440 * MAX_BOOKING_DAYS_AHEAD ∧ c.patient_id ∈ db.patients ∧
        c.doctor_id ∈ db.doctors ∧ c.hospital_id ∈ db.hospitals) →
      hasDoctorSlot db d t = false →
      ((runBookings db now nextId calls).1.countP isOk = 1 ∧
       ∀ r ∈ (runBookings db now nextId calls).1, isOk r = false →
         r = .err .slotTaken) := by
  intro db now nextId calls d t hne hvalid hfree
  match calls with
  | [] => exact absurd rfl hne
  | c :: rest =>
    obtain ⟨hcd, hct, h1, h2, hp, hdm, hh⟩ := hvalid c (List.mem_cons_self _ _)
    have hbook := bookAppointment_ok db now c.patient_id c.doctor_id c.hospital_id
      c.appointment_dt c.duration_minutes c.reason c.scoring nextId
      (hct ▸ h1) (hct ▸ h2) hp hdm hh (by rw [hcd, hct]; exact hfree)
    set ap : Appointment :=
      { id := nextId, patient_id := c.patient_id, doctor_id := c.doctor_id,
        hospital_id := c.hospital_id, appointment_datetime := c.appointment_dt,
        duration_minutes := c.duration_minutes, status := .scheduled,
        no_show_probability := bookProbability c.scoring, reason := c.reason,
        updated_at := none, cancelled_at := none } with hap
    set db' : DB := { db with appointments := db.appointments ++ [ap] } with hdb'
    have htaken' : hasDoctorSlot db' d t = true := by
      simp [hdb', hasDoctorSlot, hap, List.any_append, hcd, hct]
    have hvalid' : ∀ x ∈ rest, x.doctor_id = d ∧ x.appointment_dt = t ∧ now < t ∧
        t ≤ now + 1440 * MAX_BOOKING_DAYS_AHEAD ∧ x.patient_id ∈ db'.patients ∧
        x.doctor_id ∈ db'.doctors ∧ x.hospital_id ∈ db'.hospitals := by
      intro x hx
      exact hvalid x (List.mem_cons_of_mem _ hx)
    have hrun := runBookings_all_taken now d t rest db' (nextId + 1) hvalid' htaken'
    simp only [runBookings, hbook, hrun]
    constructor
    · simp [List.countP_cons, isOk, List.countP_map, Function.comp]
    · intro r hr hnotok
      simp only [List.mem_cons] at hr
      rcases hr with rfl | hr
      · simp [isOk] at hnotok
      · simp only [List.mem_map] at hr
        obtain ⟨x, hx, rfl⟩ := hr
        rfl

/-- Witness for the C1 theorem: two racing calls with different durations on a free Monday slot. -/
theorem book_concurrent_witness :
    racingCalls ≠ [] ∧ hasDoctorSlot mondayDemoDb 1 600 = false ∧
    ((runBookings mondayDemoDb 0 1 racingCalls).1.countP isOk = 1 ∧
     ∀ r ∈ (runBookings mondayDemoDb 0 1 racingCalls).1, isOk r = false →
       r = .err .slotTaken) := by
  refine ⟨by simp [racingCalls], by decide,
    book_concurrent_exactly_one_success mondayDemoDb 0 1 racingCalls 1 600
      (by simp [racingCalls]) (by decide) (by decide)⟩

/-- Claim C2: when the flush-time uniqueness constraint on (doctor_id, appointment_datetime) fires inside `book_appointment`, the call returns the SlotTakenError outcome — distinct from the generic internal failure — and the transaction is rolled back, leaving the state unchanged. -/
theorem book_integrity_error_slot_taken (db : DB) (now : Int) (pid did hid : Nat)
    (t dur : Int) (reason : Option String) (scoring : Except Unit ℚ) (newId : Nat)
    (h1 : now < t) (h2 : t ≤ now + 1440 * MAX_BOOKING_DAYS_AHEAD)
    (hp : pid ∈ db.patients) (hd : did ∈ db.doctors) (hh : hid ∈ db.hospitals)
    (hconflict : hasDoctorSlot db did t = true) :
    bookAppointment db now pid did hid t dur reason scoring newId =
      (.err .slotTaken, db) ∧
    bookErrorMessage .slotTaken ≠ bookErrorMessage .internalError :=
  ⟨bookAppointment_taken db now pid did hid t dur reason scoring newId
    h1 h2 hp hd hh hconflict, by decide⟩

/-- Witness for the C2 theorem on a database whose doctor already holds the slot. -/
theorem book_integrity_error_witness :
    bookAppointment bookedSlotDb 0 11 1 1 600 30 none (.ok 0) 2 =
      (.err .slotTaken, bookedSlotDb) ∧
    bookErrorMessage .slotTaken ≠ bookErrorMessage .internalError :=
  book_integrity_error_slot_taken bookedSlotDb 0 11 1 1 600 30 none (.ok 0) 2
    (by norm_num) (by decide) (by decide) (by decide) (by decide) (by decide)

/-- Claim C4, counterexample: with an empty availability table (so the requested interval lies inside no enabled window), `book_appointment` succeeds and creates the appointment instead of returning an availability error. -/
theorem book_outside_availability_succeeds_cex :
    noAvailabilityDb.availabilities = [] ∧
    (bookAppointment noAvailabilityDb 0 1 1 1 60 30 none (.ok 0) 1).1 =
      .ok 1 0 ∧
    ((bookAppointment noAvailabilityDb 0 1 1 1 60 30 none (.ok 0) 1).2.appointments.map
      (fun ap => (ap.doctor_id, ap.appointment_datetime, ap.status))) =
      [(1, 60, .scheduled)] := by decide

/-- Claim C4, amended: `book_appointment` performs no availability-window check at all — its outcome and the resulting appointment table are independent of the availability table. -/
theorem book_ignores_availability_windows :
    ∀ (db : DB) (av : List DoctorAvailability) (now : Int) (pid did hid : Nat)
      (t dur : Int) (reason : Option String) (scoring : Except Unit ℚ) (newId : Nat),
      (bookAppointment { db with availabilities := av } now pid did hid t dur
          reason scoring newId).1 =
        (bookAppointment db now pid did hid t dur reason scoring newId).1 ∧
      (bookAppointment { db with availabilities := av } now pid did hid t dur
          reason scoring newId).2.appointments =
        (bookAppointment db now pid did hid t dur reason scoring newId).2.appointments := by
  intro db av now pid did hid t dur reason scoring newId
  simp only [bookAppointment, hasDoctorSlot]
  split_ifs <;> simp

/-- Claim C5, counterexample: with the patient missing and a past start, `book_appointment` returns the past-booking error, not the not-found error, so existence is not checked first as the claim states. -/
theorem book_validation_order_cex :
    noPatientDb.patients = [] ∧
    bookAppointment noPatientDb 100 1 1 1 50 30 none (.ok 0) 1 =
      (.err .pastBooking, noPatientDb) ∧
    BookError.pastBooking ≠ BookError.patientNotFound := by decide

/-- Claim C5, amended: `book_appointment` validates in the order past-booking → horizon → patient → doctor → hospital, each short-circuiting with its distinct message; there is no availability-window step and no overlap pre-check, the only remaining rejection being the commit-time uniqueness conflict; every error outcome leaves the state unchanged. -/
theorem book_validation_order :
    ∀ (db : DB) (now : Int) (pid did hid : Nat) (t dur : Int)
      (reason : Option String) (scoring : Except Unit ℚ) (newId : Nat),
      (t ≤ now →
        bookAppointment db now pid did hid t dur reason scoring newId =
          (.err .pastBooking, db)) ∧
      (now < t → now + 1440 * MAX_BOOKING_DAYS_AHEAD < t →
        bookAppointment db now pid did hid t dur reason scoring newId =
          (.err .bookingTooFar, db)) ∧
      (now < t → t ≤ now + 1440 * MAX_BOOKING_DAYS_AHEAD → pid ∉ db.patients →
        bookAppointment db now pid did hid t dur reason scoring newId =
          (.err .patientNotFound, db)) ∧
      (now < t → t ≤ now + 1440 * MAX_BOOKING_DAYS_AHEAD → pid ∈ db.patients →
          did ∉ db.doctors →
        bookAppointment db now pid did hid t dur reason scoring newId =
          (.err .doctorNotFound, db)) ∧
      (now < t → t ≤ now + 1440 * MAX_BOOKING_DAYS_AHEAD → pid ∈ db.patients →
          did ∈ db.doctors → hid ∉ db.hospitals →
        bookAppointment db now pid did hid t dur reason scoring newId =
          (.err .hospitalNotFound, db)) ∧
      (now < t → t ≤ now + 1440 * MAX_BOOKING_DAYS_AHEAD → pid ∈ db.patients →
          did ∈ db.doctors → hid ∈ db.hospitals → hasDoctorSlot db did t = true →
        bookAppointment db now pid did hid t dur reason scoring newId =
          (.err .slotTaken, db)) ∧
      (∀ e, (bookAppointment db now pid did hid t dur reason scoring newId).1 =
          .err e →
        (bookAppointment db now pid did hid t dur reason scoring newId).2 = db) ∧
      (List.map bookErrorMessage
        [.pastBooking, .bookingTooFar, .patientNotFound, .doctorNotFound,
         .hospitalNotFound, .slotTaken, .internalError]).Nodup := by
  intro db now pid did hid t dur reason scoring newId
  refine ⟨?_, ?_, ?_, ?_, ?_, ?_, ?_, by decide⟩
  · intro h
    simp only [bookAppointment]
    rw [if_pos h]
  · intro h1 h2
    simp only [bookAppointment]
    rw [if_neg (by omega), if_pos h2]
  · intro h1 h2 hp
    simp only [bookAppointment]
    rw [if_neg (by omega), if_neg (by omega), if_pos (by simp [hp])]
  · intro h1 h2 hp hd
    simp only [bookAppointment]
    rw [if_neg (by omega), if_neg (by omega), if_neg (by simp [hp]),
        if_pos (by simp [hd])]
  · intro h1 h2 hp hd hh
    simp only [bookAppointment]
    rw [if_neg (by omega), if_neg (by omega), if_neg (by simp [hp]),
        if_neg (by simp [hd]), if_pos (by simp [hh])]
  · intro h1 h2 hp hd hh htaken
    exact bookAppointment_taken db now pid did hid t dur reason scoring newId
      h1 h2 hp hd hh htaken
  · intro e
    simp only [bookAppointment]
    split_ifs <;> intro h
    all_goals first | rfl | cases h

/-- Witness for the amended C5 theorem: the missing-patient rejection with valid times, and its rollback. -/
theorem book_validation_order_witness :
    bookAppointment noPatientDb 0 1 1 1 60 30 none (.ok 0) 1 =
      (.err .patientNotFound, noPatientDb) ∧
    (bookAppointment noPatientDb 0 1 1 1 60 30 none (.ok 0) 1).2 = noPatientDb := by
  have h := book_validation_order noPatientDb 0 1 1 1 60 30 none (.ok 0) 1
  refine ⟨h.2.2.1 (by norm_num) (by decide) (by decide), ?_⟩
  exact h.2.2.2.2.2.2.1 .patientNotFound
    (by rw [h.2.2.1 (by norm_num) (by decide) (by decide)])

/-- Claim C6, counterexample: an appointment in the terminal status NO_SHOW is cancelled successfully by `cancel_appointment`, not rejected with InvalidStateError. -/
theorem cancel_no_show_succeeds_cex :
    (noShowApptDb.appointments.map (fun a => a.status)) = [.no_show] ∧
    (cancelAppointment noShowApptDb 500 1).1 = .ok ∧
    ((cancelAppointment noShowApptDb 500 1).2.appointments.map (fun a => a.status)) =
      [.cancelled] := by decide

/-- Claim C6, amended: `cancel_appointment` rejects exactly CANCELLED and COMPLETED appointments, leaving the state unchanged; a NO_SHOW appointment is cancelled successfully; after a successful cancellation a second cancellation of the same appointment deterministically fails. -/
theorem cancel_terminal_statuses :
    ∀ (db : DB) (now : Int) (id : Nat) (ap : Appointment),
      db.appointments.find? (fun a => a.id == id) = some ap →
      ((ap.status = .cancelled ∨ ap.status = .completed) →
        cancelAppointment db now id = (.cannotCancel, db)) ∧
      (ap.status = .no_show → (cancelAppointment db now id).1 = .ok) ∧
      ((cancelAppointment db now id).1 = .ok →
        ∀ now2, cancelAppointment (cancelAppointment db now id).2 now2 id =
          (.cannotCancel, (cancelAppointment db now id).2)) := by
  intro db now id ap hfind
  refine ⟨fun h => cancel_terminal db now id ap hfind h, ?_, ?_⟩
  · intro h
    rw [cancel_success db now id ap hfind (by simp [h]) (by simp [h])]
  · intro hok now2
    by_cases hc : ap.status = .cancelled
    · rw [cancel_terminal db now id ap hfind (Or.inl hc)] at hok
      cases hok
    by_cases hcm : ap.status = .completed
    · rw [cancel_terminal db now id ap hfind (Or.inr hcm)] at hok
      cases hok
    rw [cancel_success db now id ap hfind hc hcm]
    have hfind' : (updateFirst (fun a => a.id == id) (cancelUpdate now)
        db.appointments).find? (fun a => a.id == id) = some (cancelUpdate now ap) :=
      find?_updateFirst _ _ (fun a ha => by simpa [cancelUpdate] using ha)
        db.appointments ap hfind
    exact cancel_terminal _ now2 id (cancelUpdate now ap) hfind' (Or.inl rfl)

/-- Witness for the amended C6 theorem: rejection of a cancelled appointment, success on a no-show one, and failure of the repeated cancellation. -/
theorem cancel_terminal_statuses_witness :
    cancelAppointment cancelledApptDb 5 1 = (.cannotCancel, cancelledApptDb) ∧
    (cancelAppointment noShowApptDb 500 1).1 = .ok ∧
    cancelAppointment (cancelAppointment noShowApptDb 500 1).2 7 1 =
      (.cannotCancel, (cancelAppointment noShowApptDb 500 1).2) := by
  refine ⟨(cancel_terminal_statuses cancelledApptDb 5 1
      ⟨1, 11, 1, 1, 600, 30, .cancelled, 0, none, none, none⟩ (by decide)).1
      (Or.inl rfl), ?_, ?_⟩
  · exact (cancel_terminal_statuses noShowApptDb 500 1
      ⟨1, 11, 1, 1, 600, 30, .no_show, 0, none, none, none⟩ (by decide)).2.1 rfl
  · exact (cancel_terminal_statuses noShowApptDb 500 1
      ⟨1, 11, 1, 1, 600, 30, .no_show, 0, none, none, none⟩ (by decide)).2.2
      (by decide) 7

/-- Claim C7, counterexample: a successful cancellation leaves the dedicated `cancelled_at` column empty — only `status` and `updated_at` change, so no cancellation timestamp is recorded in `Appointment.cancelled_at`. -/
theorem cancel_leaves_cancelled_at_empty_cex :
    (scheduledApptDb.appointments.map (fun a => (a.status, a.cancelled_at))) =
      [(.scheduled, none)] ∧
    (cancelAppointment scheduledApptDb 777 1).1 = .ok ∧
    ((cancelAppointment scheduledApptDb 777 1).2.appointments.map
      (fun a => (a.status, a.cancelled_at, a.updated_at))) =
      [(.cancelled, none, some 777)] := by decide

/-- Claim C7, amended: on an active appointment `cancel_appointment` succeeds, setting the status to CANCELLED and refreshing `updated_at` before committing, while `cancelled_at` is left untouched. -/
theorem cancel_sets_status_and_updated_at :
    ∀ (db : DB) (now : Int) (id : Nat) (ap : Appointment),
      db.appointments.find? (fun a => a.id == id) = some ap →
      ap.status ≠ .cancelled → ap.status ≠ .completed →
      (cancelAppointment db now id).1 = .ok ∧
      (cancelAppointment db now id).2.appointments.find? (fun a => a.id == id) =
        some { ap with status := .cancelled, updated_at := some now } ∧
      ({ ap with status := .cancelled, updated_at := some now }).cancelled_at =
        ap.cancelled_at := by
  intro db now id ap hfind hc hcm
  rw [cancel_success db now id ap hfind hc hcm]
  refine ⟨rfl, ?_, rfl⟩
  exact find?_updateFirst _ _ (fun a ha => by simpa [cancelUpdate] using ha)
    db.appointments ap hfind

/-- Witness for the amended C7 theorem on a scheduled appointment. -/
theorem cancel_sets_status_witness :
    (cancelAppointment scheduledApptDb 777 1).1 = .ok ∧
    (cancelAppointment scheduledApptDb 777 1).2.appointments.find?
      (fun a => a.id == 1) =
      some ⟨1, 11, 1, 1, 600, 30, .cancelled, 0, none, some 777, none⟩ := by
  have h := cancel_sets_status_and_updated_at scheduledApptDb 777 1
    ⟨1, 11, 1, 1, 600, 30, .scheduled, 0, none, none, none⟩
    (by decide) (by decide) (by decide)
  exact ⟨h.1, h.2.1⟩

/-- Claim C8: a failure raised inside the scoring block of `book_appointment` never aborts the booking — the call behaves exactly as if scoring had returned the configured default probability 0.5, and on success the appointment is persisted with probability 0.5. -/
theorem book_predictor_failure_default :
    ∀ (db : DB) (now : Int) (pid did hid : Nat) (t dur : Int)
      (reason : Option String) (newId : Nat),
      bookAppointment db now pid did hid t dur reason (.error ()) newId =
        bookAppointment db now pid did hid t dur reason (.ok (1/2)) newId ∧
      (∀ i p db', bookAppointment db now pid did hid t dur reason (.error ()) newId =
          (.ok i p, db') →
        p = 1/2 ∧ db'.appointments = db.appointments ++
          [{ id := newId, patient_id := pid, doctor_id := did, hospital_id := hid,
             appointment_datetime := t, duration_minutes := dur,
             status := .scheduled, no_show_probability := 1/2, reason := reason,
             updated_at := none, cancelled_at := none }]) := by
  intro db now pid did hid t dur reason newId
  refine ⟨rfl, ?_⟩
  intro i p db' h
  simp only [bookAppointment] at h
  split_ifs at h
  all_goals
    have h1 := congrArg Prod.fst h
    have h2 := congrArg Prod.snd h
    dsimp only at h1 h2
  all_goals
    first
      | exact BookOutcome.noConfusion h1
      | (subst h2
         simp only [BookOutcome.ok.injEq] at h1
         exact ⟨h1.2.symm, rfl⟩)

/-- Witness for the C8 theorem on a successful booking whose scoring block raised. -/
theorem book_predictor_failure_witness :
    bookAppointment mondayDemoDb 0 11 1 1 600 30 none (.error ()) 1 =
      bookAppointment mondayDemoDb 0 11 1 1 600 30 none (.ok (1/2)) 1 ∧
    (1 : ℚ)/2 = 1/2 ∧
    (bookAppointment mondayDemoDb 0 11 1 1 600 30 none (.error ()) 1).2.appointments =
      mondayDemoDb.appointments ++
        [{ id := 1, patient_id := 11, doctor_id := 1, hospital_id := 1,
           appointment_datetime := 600, duration_minutes := 30,
           status := .scheduled, no_show_probability := 1/2, reason := none,
           updated_at := none, cancelled_at := none }] := by
  have h := book_predictor_failure_default mondayDemoDb 0 11 1 1 600 30 none 1
  have hs := h.2 1 (1/2)
    (bookAppointment mondayDemoDb 0 11 1 1 600 30 none (.error ()) 1).2 (by rfl)
  exact ⟨h.1, hs.1, hs.2⟩

/-- Claim C10: `NoShowPredictor.predict` is total over arbitrary feature dictionaries, and whenever the wrapped model raises during scoring it returns probability 0.0 with label 0; consequently a model-level failure flows into the booking as probability 0.0, while the booking-level default 0.5 is reached only when the scoring block itself (feature building) raises. -/
theorem predict_model_failure_zero :
    ∀ (f : List ℚ → Except Unit ℚ) (features : List (String × ℚ)),
      f (orderedKeys.map (getFeature features)) = .error () →
        predict (.withProba f) features = ⟨0, 0⟩ ∧
        predict (.withPredict f) features = ⟨0, 0⟩ ∧
        bookProbability (scoringStep (.ok features) (.withProba f)) = 0 ∧
        bookProbability (scoringStep (.ok features) (.withPredict f)) = 0 ∧
        bookProbability (scoringStep (.error ()) (.withProba f)) = 1/2 := by
  intro f features h
  have h1 : predict (.withProba f) features = ⟨0, 0⟩ := by
    simp [predict, predictInner, rawProba, h]
  have h2 : predict (.withPredict f) features = ⟨0, 0⟩ := by
    simp [predict, predictInner, rawProba, h]
  refine ⟨h1, h2, ?_, ?_, rfl⟩
  · simp [scoringStep, bookProbability, h1]
  · simp [scoringStep, bookProbability, h2]

/-- Witness for the C10 theorem with a model that always raises. -/
theorem predict_model_failure_witness :
    predict (.withProba (fun _ => .error ())) [] = ⟨0, 0⟩ ∧
    predict (.withPredict (fun _ => .error ())) [] = ⟨0, 0⟩ ∧
    bookProbability (scoringStep (.ok []) (.withProba (fun _ => .error ()))) = 0 ∧
    bookProbability (scoringStep (.ok []) (.withPredict (fun _ => .error ()))) = 0 ∧
    bookProbability (scoringStep (.error ()) (.withProba (fun _ => .error ()))) = 1/2 :=
  predict_model_failure_zero (fun _ => .error ()) [] rfl


end AIDoctor
